import Mathlib

/-!
Shallow embedding of the retained-mode UI engine of the level editor
(`src/gfx/src/gui/interface.rs` and `src/gfx/src/definitions.rs`).

Modelling conventions:
* `f32` arithmetic on geometry (coordinates, UV rectangles, buffer offsets)
  is exact rational arithmetic on the inputs that appear here, so those
  values are modelled as `ℚ`; machine sizes and counts are `ℕ`.
* The sRGB correction applies `powf(2.4)`, a transcendental operation, so
  corrected colour channels are modelled as `ℝ` (with `Real.rpow`); the
  branch test of the correction compares the exact rational channel value.
* Rust aborts (`unwrap` on a missing value, slice-out-of-range, the
  explicit abort of the colour parser) are modelled by `Option`: `none`
  means the function aborts.
* GPU objects are modelled by the data the engine can observe: the vertex
  buffer by its byte capacity, the index buffer by its contents, the text
  brush by a unit token; a buffer write is an (offset, vertex data) record.
-/

/-- GuiEvent enumeration from `definitions.rs`. -/
inductive GuiEvent where
  | ChangeLayoutToFileExplorer
  | ChangeLayoutToProjectView
  | DisplaySettingsMenu
  | Highlight
deriving DecidableEq

/-- InteractionStyle enumeration from `definitions.rs`. -/
inductive InteractionStyle where
  | OnClick
  | OnHover
deriving DecidableEq

/-- Coordinate struct: a pair of `f32` fields, modelled as exact rationals. -/
structure Coordinate where
  x : ℚ
  y : ℚ
deriving DecidableEq

/-- Value of one hexadecimal digit character, as accepted by
`u32::from_str_radix(_, 16)`. -/
def hexDigitVal (c : Char) : Option ℕ :=
  if '0' ≤ c ∧ c ≤ '9' then some (c.toNat - '0'.toNat)
  else if 'a' ≤ c ∧ c ≤ 'f' then some (c.toNat - 'a'.toNat + 10)
  else if 'A' ≤ c ∧ c ≤ 'F' then some (c.toNat - 'A'.toNat + 10)
  else none

/-- Result of `u32::from_str_radix(s, 16)` on a two-character slice: an
optional leading plus sign followed by hexadecimal digits; anything else is
a parse error (`none`). -/
def fromStrRadix16Pair (c₁ c₂ : Char) : Option ℕ :=
  match hexDigitVal c₁, hexDigitVal c₂ with
  | some d₁, some d₂ => some (16 * d₁ + d₂)
  | _, _ => if c₁ = '+' then hexDigitVal c₂ else none

/-- Colour with linear (sRGB-corrected) channels, from `interface.rs`.
Corrected channels involve `powf(2.4)` and are modelled as reals. -/
structure Color where
  r : ℝ
  g : ℝ
  b : ℝ
  a : ℝ

/-- Color::srgb_correction from `interface.rs`: per channel, values at most
0.04045 are divided by 12.92, larger values go through the power-2.4 curve.
The channel value handed in by `from_hex` is an exact rational, so the
branch test is exact; the nonlinear branch lives in `ℝ`. -/
noncomputable def Color.srgb_correction (x y z : ℚ) : ℝ × ℝ × ℝ :=
  (if x ≤ 0.04045 then ((x / 12.92 : ℚ) : ℝ) else (((x : ℝ) + 0.055) / 1.055) ^ (2.4 : ℝ),
   if y ≤ 0.04045 then ((y / 12.92 : ℚ) : ℝ) else (((y : ℝ) + 0.055) / 1.055) ^ (2.4 : ℝ),
   if z ≤ 0.04045 then ((z / 12.92 : ℚ) : ℝ) else (((z : ℝ) + 0.055) / 1.055) ^ (2.4 : ℝ))

/-- Color::from_hex from `interface.rs`, on the character list of the input
string.  The Rust code strips a leading `#` (aborting when there is none),
byte-slices the remainder at 0..2, 2..4, 4..6, 6..8 (aborting when the
string is too short), parses each slice with `u32::from_str_radix(_, 16)`
and unwraps (aborting on a parse error), divides by 255 and applies the
sRGB correction to the first three channels.  Characters beyond the first
eight after the `#` are never read.  `none` models the abort. -/
noncomputable def Color.from_hex (s : List Char) : Option Color :=
  match s with
  | '#' :: c₀ :: c₁ :: c₂ :: c₃ :: c₄ :: c₅ :: c₆ :: c₇ :: _ =>
    match fromStrRadix16Pair c₀ c₁, fromStrRadix16Pair c₂ c₃,
          fromStrRadix16Pair c₄ c₅, fromStrRadix16Pair c₆ c₇ with
    | some red, some green, some blue, some alpha =>
      let corrected := Color.srgb_correction ((red : ℚ) / 255) ((green : ℚ) / 255) ((blue : ℚ) / 255)
      some { r := corrected.1, g := corrected.2.1, b := corrected.2.2,
             a := (((alpha : ℚ) / 255 : ℚ) : ℝ) }
    | _, _, _, _ => none
  | _ => none

/-- Color::into_vec4 from `interface.rs`. -/
def Color.into_vec4 (c : Color) : ℝ × ℝ × ℝ × ℝ := (c.r, c.g, c.b, c.a)

/-- Default white colour `Color::from_hex("#ffffffff")` used by the
`Panel::new` and `Element::new` constructors; the literal always parses. -/
noncomputable def whiteColor : Color :=
  (Color.from_hex "#ffffffff".toList).getD { r := 0, g := 0, b := 0, a := 0 }

/-- Element struct from `interface.rs`.  The `on_click`/`on_hover` handlers
are boxed `Fn() -> Option<GuiEvent>` closures: argumentless pure callables
producing an optional event. -/
structure Element where
  start_coordinate : Coordinate
  end_coordinate : Coordinate
  color : Color
  original_color : Color
  text : Option (String × ℚ)
  texture_name : String
  on_click : Option (Unit → Option GuiEvent)
  on_hover : Option (Unit → Option GuiEvent)

/-- Element::new from `interface.rs`. -/
noncomputable def Element.new (s e : Coordinate) (tname : String) : Element :=
  { start_coordinate := s, end_coordinate := e, color := whiteColor,
    original_color := whiteColor, text := none, texture_name := tname,
    on_click := none, on_hover := none }

/-- Element::with_fn from `interface.rs`: installs the callable in the
handler slot selected by the interaction style. -/
def Element.with_fn (el : Element) (f : Unit → Option GuiEvent) (style : InteractionStyle) : Element :=
  if style = InteractionStyle.OnClick then { el with on_click := some f }
  else if style = InteractionStyle.OnHover then { el with on_hover := some f }
  else el

/-- Element::with_color from `interface.rs`: sets both `color` and
`original_color` to the parsed colour; aborts when parsing aborts. -/
noncomputable def Element.with_color (el : Element) (s : List Char) : Option Element :=
  (Color.from_hex s).map fun c => { el with color := c, original_color := c }

/-- Element::with_temp_color from `interface.rs`: overwrites only `color`
with the parsed colour (the hover tint); `original_color` is untouched.
Aborts when parsing aborts. -/
noncomputable def Element.with_temp_color (el : Element) (s : List Char) : Option Element :=
  (Color.from_hex s).map fun c => { el with color := c }

/-- Element::handle_click from `interface.rs`: pick the handler slot by
interaction style and invoke it when present. -/
def Element.handle_click (el : Element) (ty : InteractionStyle) : Option GuiEvent :=
  let fsrc := if ty = InteractionStyle.OnClick then el.on_click else el.on_hover
  match fsrc with
  | some f => f ()
  | none => none

/-- Panel struct from `interface.rs`. -/
structure Panel where
  elements : List Element
  start_coordinate : Coordinate
  end_coordinate : Coordinate
  renderable : Bool
  texture_name : String
  color : Color

/-- Panel::new from `interface.rs`: non-renderable, texture "solid",
white background. -/
noncomputable def Panel.new (s e : Coordinate) : Panel :=
  { elements := [], start_coordinate := s, end_coordinate := e,
    renderable := false, texture_name := "solid", color := whiteColor }

/-- Panel::add_element from `interface.rs`. -/
def Panel.add_element (p : Panel) (el : Element) : Panel :=
  { p with elements := p.elements ++ [el] }

/-- UiAtlasTexture struct from `definitions.rs`. -/
structure UiAtlasTexture where
  name : String
  x_start : ℕ
  y_start : ℕ
  image_width : ℕ
  image_height : ℕ
  start_coord : Option (ℚ × ℚ)
  end_coord : Option (ℚ × ℚ)
deriving DecidableEq

/-- UiAtlasTexture::new from `definitions.rs`. -/
def UiAtlasTexture.new (name : String) (x₀ y₀ w h : ℕ) : UiAtlasTexture :=
  { name := name, x_start := x₀, y_start := y₀, image_width := w,
    image_height := h, start_coord := none, end_coord := none }

/-- UiAtlasTexture::generate_tex_coords from `definitions.rs`: derive the
normalized UV pair by dividing the pixel rectangle by the atlas size. -/
def UiAtlasTexture.generate_tex_coords (t : UiAtlasTexture) (width height : ℕ) : UiAtlasTexture :=
  { t with
    start_coord := some ((t.x_start : ℚ) / (width : ℚ), (t.y_start : ℚ) / (height : ℚ)),
    end_coord := some (((t.x_start + t.image_width : ℕ) : ℚ) / (width : ℚ),
                       ((t.y_start + t.image_height : ℕ) : ℚ) / (height : ℚ)) }

/-- UiAtlas struct from `definitions.rs`. -/
structure UiAtlas where
  entries : List UiAtlasTexture
  width : ℕ
  height : ℕ
deriving DecidableEq

/-- UiAtlas::new from `definitions.rs`. -/
def UiAtlas.new (width height : ℕ) : UiAtlas :=
  { entries := [], width := width, height := height }

/-- UiAtlas::add_entry from `definitions.rs`: push the entry with its UVs
derived from the atlas dimensions. -/
def UiAtlas.add_entry (a : UiAtlas) (t : UiAtlasTexture) : UiAtlas :=
  { a with entries := a.entries ++ [t.generate_tex_coords a.width a.height] }

/-- Interface struct from `interface.rs`.  The GPU vertex buffer is
modelled by its byte capacity, the index buffer by its `u16` contents, the
text brush by a unit token; `none` is the uninitialized state. -/
structure Interface where
  panels : List Panel
  vertex_buffer : Option ℕ
  index_buffer : Option (List ℕ)
  brush : Option Unit
  atlas : UiAtlas

/-- Interface::new from `interface.rs`. -/
def Interface.new (atlas : UiAtlas) : Interface :=
  { panels := [], vertex_buffer := none, index_buffer := none,
    brush := none, atlas := atlas }

/-- Interface::add_panel from `interface.rs`. -/
def Interface.add_panel (ui : Interface) (p : Panel) : Interface :=
  { ui with panels := ui.panels ++ [p] }

/-- Hit test of the element loop of Interface::handle_interaction
(`interface.rs` lines 41-55): scan elements in order with their index; for
an element containing the panel-relative cursor whose handler slot for the
interaction style is occupied, invoke the handler; return on a produced
event, otherwise keep scanning. -/
def elemDispatchLoop (rx ry : ℚ) (ty : InteractionStyle) : ℕ → List Element → Option (GuiEvent × ℕ)
  | _, [] => none
  | i, el :: rest =>
    if rx ≥ el.start_coordinate.x ∧ rx ≤ el.end_coordinate.x ∧
       ry ≥ el.start_coordinate.y ∧ ry ≤ el.end_coordinate.y then
      if ty = InteractionStyle.OnClick ∧ el.on_click.isSome then
        match el.handle_click ty with
        | some ev => some (ev, i)
        | none => elemDispatchLoop rx ry ty (i + 1) rest
      else if ty = InteractionStyle.OnHover ∧ el.on_hover.isSome then
        match el.handle_click ty with
        | some ev => some (ev, i)
        | none => elemDispatchLoop rx ry ty (i + 1) rest
      else elemDispatchLoop rx ry ty (i + 1) rest
    else elemDispatchLoop rx ry ty (i + 1) rest

/-- Panel loop of Interface::handle_interaction (`interface.rs` lines
35-57): scan panels in order; inside a panel containing the normalized
cursor, run the element loop on the cursor position relative to the panel
origin; return its hit if any, otherwise continue with later panels. -/
def panelDispatchLoop (xp yp : ℚ) (ty : InteractionStyle) : ℕ → List Panel → Option (GuiEvent × ℕ × ℕ)
  | _, [] => none
  | pi, p :: rest =>
    if xp ≥ p.start_coordinate.x ∧ xp ≤ p.end_coordinate.x ∧
       yp ≥ p.start_coordinate.y ∧ yp ≤ p.end_coordinate.y then
      match elemDispatchLoop (xp - p.start_coordinate.x) (yp - p.start_coordinate.y) ty 0 p.elements with
      | some (ev, ei) => some (ev, pi, ei)
      | none => panelDispatchLoop xp yp ty (pi + 1) rest
    else panelDispatchLoop xp yp ty (pi + 1) rest

/-- Interface::handle_interaction from `interface.rs`: normalize the pixel
cursor position by the screen size, then run the panel/element scan. -/
def Interface.handle_interaction (ui : Interface) (pos : ℚ × ℚ) (screen : ℕ × ℕ)
    (ty : InteractionStyle) : Option (GuiEvent × ℕ × ℕ) :=
  let xp := pos.1 / (screen.1 : ℚ)
  let yp := pos.2 / (screen.2 : ℚ)
  panelDispatchLoop xp yp ty 0 ui.panels

/-- Interface::reset_all_element_colors from `interface.rs`: every element
gets its colour restored to its original colour. -/
def Interface.reset_all_element_colors (ui : Interface) : Interface :=
  { ui with panels := ui.panels.map fun p =>
      { p with elements := p.elements.map fun el => { el with color := el.original_color } } }

/-- Panel::calculate_absolute_coordinates from `interface.rs`: multiply the
normalized rectangle by the screen pixel size, then shift to center-origin
device coordinates, flipping the Y axis.  Result order is
(x_min, y_min, x_max, y_max) as in the source. -/
def Panel.calculate_absolute_coordinates (p : Panel) (screen : ℕ × ℕ) : ℚ × ℚ × ℚ × ℚ :=
  let screen_width_full : ℚ := (screen.1 : ℚ)
  let screen_height_full : ℚ := (screen.2 : ℚ)
  let x_min_px := p.start_coordinate.x * screen_width_full
  let x_max_px := p.end_coordinate.x * screen_width_full
  let y_min_px := p.start_coordinate.y * screen_height_full
  let y_max_px := p.end_coordinate.y * screen_height_full
  let half_screen_width := screen_width_full / 2
  let half_screen_height := screen_height_full / 2
  (x_min_px - half_screen_width, half_screen_height - y_max_px,
   x_max_px - half_screen_width, half_screen_height - y_min_px)

/-- Vertex record from `definitions.rs`: `{position: [f32;2],
color: [f32;4], tex_coords: [f32;2]}`, 32 bytes on the GPU. -/
structure Vertex where
  position : ℚ × ℚ
  color : ℝ × ℝ × ℝ × ℝ
  tex_coords : ℚ × ℚ

/-- Byte size of one `Vertex` (8 `f32` fields of 4 bytes). -/
def vertexSizeBytes : ℕ := 32

/-- Byte size of one quad: 4 vertices of 32 bytes. -/
def quadSizeBytes : ℕ := 4 * vertexSizeBytes

/-- UV rectangle handed to a quad: the four `[f32;2]` corners in the order
the source stores them (indices 0..3). -/
structure TexQuad where
  tc0 : ℚ × ℚ
  tc1 : ℚ × ℚ
  tc2 : ℚ × ℚ
  tc3 : ℚ × ℚ
deriving DecidableEq

/-- All-zero UV rectangle, the initial value of the `tex_coords` variables
in Interface::update_vertices_and_queue_text. -/
def zeroTexQuad : TexQuad := { tc0 := (0, 0), tc1 := (0, 0), tc2 := (0, 0), tc3 := (0, 0) }

/-- Atlas scan of Interface::update_vertices_and_queue_text (both the panel
scan at lines 139-148 and the element scan at lines 195-204): walk every
atlas entry in order; on a name match overwrite the current UV rectangle
with the entry's unwrapped coordinates (so the last matching entry wins);
a matching entry with an ungenerated coordinate aborts (`unwrap` on
`None`); with no match the rectangle that was current before the scan is
kept. -/
def atlasScan (entries : List UiAtlasTexture) (tname : String) (init : TexQuad) : Option TexQuad :=
  entries.foldl
    (fun acc entry =>
      acc.bind fun cur =>
        if entry.name = tname then
          match entry.start_coord, entry.end_coord with
          | some sc, some ec =>
            some { tc0 := (sc.1, sc.2), tc1 := (ec.1, sc.2),
                   tc2 := (ec.1, ec.2), tc3 := (sc.1, ec.2) }
          | _, _ => none
        else some cur)
    (some init)

/-- Element::calculate_vertices_relative_to_panel from `interface.rs`:
linearly interpolate the element's panel-local rectangle across the
panel's device rectangle (Y flipped: local top maps to the panel's device
maximum Y), then emit the four vertices top-left, top-right, bottom-left,
bottom-right with texture corners 0, 1, 3, 2. -/
def Element.calculate_vertices_relative_to_panel (el : Element)
    (panel_x_min panel_y_min panel_x_max panel_y_max : ℚ) (tc : TexQuad) : List Vertex :=
  let x_min := panel_x_min + el.start_coordinate.x * (panel_x_max - panel_x_min)
  let x_max := panel_x_min + el.end_coordinate.x * (panel_x_max - panel_x_min)
  let y_top := panel_y_max - el.start_coordinate.y * (panel_y_max - panel_y_min)
  let y_bottom := panel_y_max - el.end_coordinate.y * (panel_y_max - panel_y_min)
  [ { position := (x_min, y_top), color := el.color.into_vec4, tex_coords := tc.tc0 },
    { position := (x_max, y_top), color := el.color.into_vec4, tex_coords := tc.tc1 },
    { position := (x_min, y_bottom), color := el.color.into_vec4, tex_coords := tc.tc3 },
    { position := (x_max, y_bottom), color := el.color.into_vec4, tex_coords := tc.tc2 } ]

/-- Panel background quad of Interface::update_vertices_and_queue_text
(lines 151-172): four vertices at the panel's device rectangle corners,
panel colour, texture corners 0, 1, 3, 2. -/
def panelQuadVertices (p : Panel) (x_min y_min x_max y_max : ℚ) (tc : TexQuad) : List Vertex :=
  [ { position := (x_min, y_max), color := p.color.into_vec4, tex_coords := tc.tc0 },
    { position := (x_max, y_max), color := p.color.into_vec4, tex_coords := tc.tc1 },
    { position := (x_min, y_min), color := p.color.into_vec4, tex_coords := tc.tc3 },
    { position := (x_max, y_min), color := p.color.into_vec4, tex_coords := tc.tc2 } ]

/-- One `queue.write_buffer` call: destination byte offset and the four
vertices written there. -/
structure BufferWrite where
  offset : ℕ
  data : List Vertex

/-- Element loop of Interface::update_vertices_and_queue_text (lines
194-254).  State threaded exactly as in the source: the byte offset and
the `tex_coords` variable, which is declared once per panel and is only
overwritten when an atlas entry matches, so an unmatched element inherits
the rectangle left by the previous match.  Every write unwraps the vertex
buffer handle: `hasVB = false` aborts at the first write. -/
def elemWritesLoop (entries : List UiAtlasTexture) (hasVB : Bool)
    (px_min py_min px_max py_max : ℚ) :
    List Element → ℕ → TexQuad → Option (List BufferWrite × ℕ × TexQuad)
  | [], off, tc => some ([], off, tc)
  | el :: rest, off, tc =>
    (atlasScan entries el.texture_name tc).bind fun tc₁ =>
      let vs := el.calculate_vertices_relative_to_panel px_min py_min px_max py_max tc₁
      if hasVB then
        (elemWritesLoop entries hasVB px_min py_min px_max py_max rest (off + quadSizeBytes) tc₁).map
          fun r => ({ offset := off, data := vs } :: r.1, r.2)
      else none

/-- Panel loop of Interface::update_vertices_and_queue_text (lines
128-255): per panel, compute the device rectangle, scan the atlas for the
panel texture into a fresh all-zero rectangle, write the background quad
when the panel is renderable, then run the element loop on a fresh
all-zero rectangle. -/
def panelWritesLoop (entries : List UiAtlasTexture) (hasVB : Bool) (screen : ℕ × ℕ) :
    List Panel → ℕ → Option (List BufferWrite × ℕ)
  | [], off => some ([], off)
  | p :: rest, off =>
    let coords := p.calculate_absolute_coordinates screen
    let px_min := coords.1
    let py_min := coords.2.1
    let px_max := coords.2.2.1
    let py_max := coords.2.2.2
    (atlasScan entries p.texture_name zeroTexQuad).bind fun ptc =>
      let step : Option (List BufferWrite × ℕ) :=
        if p.renderable then
          if hasVB then
            some ([{ offset := off, data := panelQuadVertices p px_min py_min px_max py_max ptc }],
                  off + quadSizeBytes)
          else none
        else some ([], off)
      step.bind fun s =>
        (elemWritesLoop entries hasVB px_min py_min px_max py_max p.elements s.2 zeroTexQuad).bind
          fun r =>
            (panelWritesLoop entries hasVB screen rest r.2.1).map
              fun q => (s.1 ++ r.1 ++ q.1, q.2)

/-- Interface::update_vertices_and_queue_text from `interface.rs`,
projected to the sequence of vertex buffer writes it issues.  The brush is
unwrapped unconditionally at entry (uninitialized brush aborts); the
vertex buffer handle is unwrapped at each write.  Text queuing, a side
effect on the external rasterizer, adds no buffer write and is not part of
the modelled state. -/
def Interface.update_vertices_and_queue_text (ui : Interface) (screen : ℕ × ℕ) :
    Option (List BufferWrite) :=
  match ui.brush with
  | none => none
  | some _ =>
    (panelWritesLoop ui.atlas.entries ui.vertex_buffer.isSome screen ui.panels 0).map
      fun r => r.1

/-- Total element count of the interface tree. -/
def Interface.totalElements (ui : Interface) : ℕ :=
  (ui.panels.map fun p => p.elements.length).sum

/-- Number of renderable panels of the interface tree. -/
def Interface.renderablePanels (ui : Interface) : ℕ :=
  (ui.panels.filter fun p => p.renderable).length

/-- Total panel count of the interface tree. -/
def Interface.totalPanels (ui : Interface) : ℕ :=
  ui.panels.length

/-- Interface::init_gpu_buffers from `interface.rs`: build the brush,
compute the required vertex count as four per element plus four per panel
(`iter().count()`, irrespective of the renderable flag), allocate the
vertex buffer with that byte size, create the index buffer with the fixed
quad pattern, then run one update pass (whose abort propagates). -/
def Interface.init_gpu_buffers (ui : Interface) (screen : ℕ × ℕ) : Option Interface :=
  let total_vertices_needed :=
    (ui.panels.map fun p => p.elements.length).sum * 4 + ui.panels.length * 4
  let ui₁ : Interface :=
    { ui with
      brush := some (),
      vertex_buffer := some (total_vertices_needed * vertexSizeBytes),
      index_buffer := some [0, 2, 1, 1, 2, 3] }
  (ui₁.update_vertices_and_queue_text screen).map fun _ => ui₁

/-- Element iteration of Interface::render (lines 389-396): one draw call
per element, each consuming one quad-sized slice at the running offset. -/
def elemRenderLoop : List Element → ℕ → List ℕ × ℕ
  | [], off => ([], off)
  | _ :: rest, off =>
    let r := elemRenderLoop rest (off + quadSizeBytes)
    (off :: r.1, r.2)

/-- Panel iteration of Interface::render (lines 379-397): for a renderable
panel one draw call for the background quad, then one per element, all at
sequential quad-sized offsets. -/
def panelRenderLoop : List Panel → ℕ → List ℕ × ℕ
  | [], off => ([], off)
  | p :: rest, off =>
    let s : List ℕ × ℕ := if p.renderable then ([off], off + quadSizeBytes) else ([], off)
    let r := elemRenderLoop p.elements s.2
    let q := panelRenderLoop rest r.2
    (s.1 ++ r.1 ++ q.1, q.2)

/-- Interface::render from `interface.rs`, projected to the sequence of
byte offsets at which it binds quad-sized vertex buffer slices and issues
indexed draw calls.  With an uninitialized vertex or index buffer it skips
rendering (empty sequence) instead of failing. -/
def Interface.render (ui : Interface) : List ℕ :=
  match ui.vertex_buffer, ui.index_buffer with
  | some _, some _ => (panelRenderLoop ui.panels 0).1
  | _, _ => []

/-- Containment test of the panel hit test, as written in
Interface::handle_interaction. -/
def panelContains (xp yp : ℚ) (p : Panel) : Bool :=
  decide (xp ≥ p.start_coordinate.x ∧ xp ≤ p.end_coordinate.x ∧
          yp ≥ p.start_coordinate.y ∧ yp ≤ p.end_coordinate.y)

/-- Containment test of the element hit test against the panel-relative
cursor, as written in Interface::handle_interaction. -/
def elementContains (rx ry : ℚ) (el : Element) : Bool :=
  decide (rx ≥ el.start_coordinate.x ∧ rx ≤ el.end_coordinate.x ∧
          ry ≥ el.start_coordinate.y ∧ ry ≤ el.end_coordinate.y)

/-- Whether the element owns a handler for the given interaction kind
(click and hover are independent slots). -/
def hasMatchingHandler (el : Element) (ty : InteractionStyle) : Bool :=
  (decide (ty = InteractionStyle.OnClick) && el.on_click.isSome) ||
  (decide (ty = InteractionStyle.OnHover) && el.on_hover.isSome)

/-- Ordered candidate list of the dispatch specification: indexed elements
of cursor-containing panels, restricted to elements that contain the
panel-relative cursor and own a matching handler, in panel order then
element order. -/
def dispatchCandidates (ui : Interface) (xp yp : ℚ) (ty : InteractionStyle) :
    List (ℕ × ℕ × Element) :=
  ui.panels.enum.flatMap fun pe =>
    if panelContains xp yp pe.2 then
      ((pe.2.elements.enum.filter fun ee =>
          elementContains (xp - pe.2.start_coordinate.x) (yp - pe.2.start_coordinate.y) ee.2 &&
          hasMatchingHandler ee.2 ty).map fun ee => (pe.1, ee.1, ee.2))
    else []

/-- Declarative dispatch: invoke the candidates in order and return the
first produced event with its address; candidates whose handler produces
no event do not stop the scan. -/
def dispatchSpec (ui : Interface) (pos : ℚ × ℚ) (screen : ℕ × ℕ)
    (ty : InteractionStyle) : Option (GuiEvent × ℕ × ℕ) :=
  let xp := pos.1 / (screen.1 : ℚ)
  let yp := pos.2 / (screen.2 : ℚ)
  (dispatchCandidates ui xp yp ty).findSome? fun c =>
    (c.2.2.handle_click ty).map fun ev => (ev, c.1, c.2.1)

/-- Element loop of Interface::handle_interaction, instrumented with the
list of element indices whose handler gets invoked; the branching is the
branching of `elemDispatchLoop`. -/
def elemDispatchLoopTrace (rx ry : ℚ) (ty : InteractionStyle) :
    ℕ → List Element → List ℕ × Option (GuiEvent × ℕ)
  | _, [] => ([], none)
  | i, el :: rest =>
    if rx ≥ el.start_coordinate.x ∧ rx ≤ el.end_coordinate.x ∧
       ry ≥ el.start_coordinate.y ∧ ry ≤ el.end_coordinate.y then
      if ty = InteractionStyle.OnClick ∧ el.on_click.isSome then
        match el.handle_click ty with
        | some ev => ([i], some (ev, i))
        | none =>
          let r := elemDispatchLoopTrace rx ry ty (i + 1) rest
          (i :: r.1, r.2)
      else if ty = InteractionStyle.OnHover ∧ el.on_hover.isSome then
        match el.handle_click ty with
        | some ev => ([i], some (ev, i))
        | none =>
          let r := elemDispatchLoopTrace rx ry ty (i + 1) rest
          (i :: r.1, r.2)
      else elemDispatchLoopTrace rx ry ty (i + 1) rest
    else elemDispatchLoopTrace rx ry ty (i + 1) rest

/-- Panel loop of Interface::handle_interaction, instrumented with the
list of (panel index, element index) addresses whose handler gets
invoked. -/
def panelDispatchLoopTrace (xp yp : ℚ) (ty : InteractionStyle) :
    ℕ → List Panel → List (ℕ × ℕ) × Option (GuiEvent × ℕ × ℕ)
  | _, [] => ([], none)
  | pi, p :: rest =>
    if xp ≥ p.start_coordinate.x ∧ xp ≤ p.end_coordinate.x ∧
       yp ≥ p.start_coordinate.y ∧ yp ≤ p.end_coordinate.y then
      let e := elemDispatchLoopTrace (xp - p.start_coordinate.x) (yp - p.start_coordinate.y) ty 0 p.elements
      match e.2 with
      | some (ev, ei) => (e.1.map fun i => (pi, i), some (ev, pi, ei))
      | none =>
        let r := panelDispatchLoopTrace xp yp ty (pi + 1) rest
        ((e.1.map fun i => (pi, i)) ++ r.1, r.2)
    else panelDispatchLoopTrace xp yp ty (pi + 1) rest

/-- Interface::handle_interaction, instrumented with the ordered list of
addresses whose handler gets invoked during the dispatch. -/
def Interface.handle_interaction_trace (ui : Interface) (pos : ℚ × ℚ) (screen : ℕ × ℕ)
    (ty : InteractionStyle) : List (ℕ × ℕ) × Option (GuiEvent × ℕ × ℕ) :=
  let xp := pos.1 / (screen.1 : ℚ)
  let yp := pos.2 / (screen.2 : ℚ)
  panelDispatchLoopTrace xp yp ty 0 ui.panels

/-- Element loop of Interface::handle_interaction with the element list
threaded through as mutable state, mirroring the `&mut self` borrow of the
Rust method: each iteration hands back the element it visited (the body
contains no assignment; handlers take no arguments). -/
def elemDispatchLoopSt (rx ry : ℚ) (ty : InteractionStyle) :
    ℕ → List Element → List Element × Option (GuiEvent × ℕ)
  | _, [] => ([], none)
  | i, el :: rest =>
    if rx ≥ el.start_coordinate.x ∧ rx ≤ el.end_coordinate.x ∧
       ry ≥ el.start_coordinate.y ∧ ry ≤ el.end_coordinate.y then
      if ty = InteractionStyle.OnClick ∧ el.on_click.isSome then
        match el.handle_click ty with
        | some ev => (el :: rest, some (ev, i))
        | none =>
          let r := elemDispatchLoopSt rx ry ty (i + 1) rest
          (el :: r.1, r.2)
      else if ty = InteractionStyle.OnHover ∧ el.on_hover.isSome then
        match el.handle_click ty with
        | some ev => (el :: rest, some (ev, i))
        | none =>
          let r := elemDispatchLoopSt rx ry ty (i + 1) rest
          (el :: r.1, r.2)
      else
        let r := elemDispatchLoopSt rx ry ty (i + 1) rest
        (el :: r.1, r.2)
    else
      let r := elemDispatchLoopSt rx ry ty (i + 1) rest
      (el :: r.1, r.2)

/-- Panel loop of Interface::handle_interaction with the panel list
threaded through as mutable state. -/
def panelDispatchLoopSt (xp yp : ℚ) (ty : InteractionStyle) :
    ℕ → List Panel → List Panel × Option (GuiEvent × ℕ × ℕ)
  | _, [] => ([], none)
  | pi, p :: rest =>
    if xp ≥ p.start_coordinate.x ∧ xp ≤ p.end_coordinate.x ∧
       yp ≥ p.start_coordinate.y ∧ yp ≤ p.end_coordinate.y then
      let e := elemDispatchLoopSt (xp - p.start_coordinate.x) (yp - p.start_coordinate.y) ty 0 p.elements
      match e.2 with
      | some (ev, ei) => ({ p with elements := e.1 } :: rest, some (ev, pi, ei))
      | none =>
        let r := panelDispatchLoopSt xp yp ty (pi + 1) rest
        ({ p with elements := e.1 } :: r.1, r.2)
    else
      let r := panelDispatchLoopSt xp yp ty (pi + 1) rest
      (p :: r.1, r.2)

/-- Interface::handle_interaction with the interface threaded through as
mutable state: the pair of the interface as it stands after the dispatch
and the dispatch result. -/
def Interface.handle_interaction_st (ui : Interface) (pos : ℚ × ℚ) (screen : ℕ × ℕ)
    (ty : InteractionStyle) : Interface × Option (GuiEvent × ℕ × ℕ) :=
  let xp := pos.1 / (screen.1 : ℚ)
  let yp := pos.2 / (screen.2 : ℚ)
  let r := panelDispatchLoopSt xp yp ty 0 ui.panels
  ({ ui with panels := r.1 }, r.2)

/-! Concrete scene of the end-to-end dispatch scenario (claim C5): one
panel (0,0)-(1,0.2) holding one element (0,0)-(0.5,1) with a click handler
returning Highlight, built through the constructors of the source. -/

/-- Element of the C5 scenario. -/
noncomputable def c5_element : Element :=
  (Element.new ⟨0, 0⟩ ⟨1/2, 1⟩ "solid").with_fn (fun _ => some GuiEvent.Highlight)
    InteractionStyle.OnClick

/-- Panel of the C5 scenario. -/
noncomputable def c5_panel : Panel :=
  (Panel.new ⟨0, 0⟩ ⟨1, 1/5⟩).add_element c5_element

/-- Interface of the C5 scenario. -/
noncomputable def c5_ui : Interface :=
  (Interface.new (UiAtlas.new 1 1)).add_panel c5_panel

/-- C5: in the scenario interface, a click at normalized position
(0.25, 0.1) dispatches Highlight at address (0, 0), and a click at
(0.75, 0.1) dispatches nothing. -/
theorem C5_end_to_end_click_scenario :
    c5_ui.handle_interaction (1/4, 1/10) (1, 1) InteractionStyle.OnClick =
        some (GuiEvent.Highlight, 0, 0) ∧
    c5_ui.handle_interaction (3/4, 1/10) (1, 1) InteractionStyle.OnClick = none := by
  constructor <;>
    · simp [Interface.handle_interaction, c5_ui, c5_panel, c5_element, Interface.new,
        Interface.add_panel, Panel.new, Panel.add_element, Element.new, Element.with_fn,
        panelDispatchLoop, elemDispatchLoop, Element.handle_click]
      norm_num

/-- C7: an element with local rectangle (0,0)-(1,1) reproduces the panel's
device rectangle exactly: left edge at the panel x minimum, right edge at
the x maximum, top edge at the y maximum, bottom edge at the y minimum. -/
theorem C7_identity_element_reproduces_panel_rect
    (px_min py_min px_max py_max : ℚ) (el : Element) (tc : TexQuad)
    (h₀ : el.start_coordinate = ⟨0, 0⟩) (h₁ : el.end_coordinate = ⟨1, 1⟩) :
    (el.calculate_vertices_relative_to_panel px_min py_min px_max py_max tc).map
        (fun v => v.position) =
      [(px_min, py_max), (px_max, py_max), (px_min, py_min), (px_max, py_min)] := by
  simp [Element.calculate_vertices_relative_to_panel, h₀, h₁]

/-- Witness for C7 at a concrete element and panel rectangle. -/
theorem C7_witness :
    ((Element.new ⟨0, 0⟩ ⟨1, 1⟩ "solid").calculate_vertices_relative_to_panel
        2 3 5 7 zeroTexQuad).map (fun v => v.position) =
      [(2, 7), (5, 7), (2, 3), (5, 3)] :=
  C7_identity_element_reproduces_panel_rect 2 3 5 7 _ zeroTexQuad rfl rfl

/-- Entries of an atlas populated by folding UiAtlas::add_entry: each raw
texture is appended with coordinates generated against the accumulator's
dimensions, which add_entry never changes. -/
lemma foldl_add_entry_entries (ts : List UiAtlasTexture) :
    ∀ a : UiAtlas, (ts.foldl UiAtlas.add_entry a).entries
      = a.entries ++ ts.map fun t => t.generate_tex_coords a.width a.height := by
  induction ts with
  | nil => intro a; simp
  | cons t ts ih =>
    intro a
    simp only [List.foldl_cons, ih, List.map_cons]
    simp [UiAtlas.add_entry]

/-- The atlas scan of the packer never aborts when every entry carries
generated coordinates. -/
lemma atlasScan_isSome :
    ∀ entries : List UiAtlasTexture,
      (∀ e ∈ entries, e.start_coord.isSome ∧ e.end_coord.isSome) →
      ∀ tname init, (atlasScan entries tname init).isSome := by
  intro entries
  induction entries with
  | nil => intro _ tname init; simp [atlasScan]
  | cons e rest ih =>
    intro h tname init
    obtain ⟨hs, he⟩ := h e (by simp)
    obtain ⟨sc, hsc⟩ := Option.isSome_iff_exists.mp hs
    obtain ⟨ec, hec⟩ := Option.isSome_iff_exists.mp he
    have hrest : ∀ x ∈ rest, x.start_coord.isSome ∧ x.end_coord.isSome :=
      fun x hx => h x (by simp [hx])
    by_cases hn : e.name = tname
    · have := ih hrest tname
        { tc0 := (sc.1, sc.2), tc1 := (ec.1, sc.2), tc2 := (ec.1, ec.2), tc3 := (sc.1, ec.2) }
      simpa [atlasScan, hn, hsc, hec] using this
    · have := ih hrest tname init
      simpa [atlasScan, hn] using this

/-- C10: every entry of an atlas populated solely through add_entry has
its UV coordinates present and equal to the pixel rectangle divided by
the atlas dimensions, so the coordinate unwraps of the packer's atlas
scan cannot abort on such an atlas. -/
theorem C10_add_entry_coords_present (w h : ℕ) (ts : List UiAtlasTexture) :
    (∀ e ∈ (ts.foldl UiAtlas.add_entry (UiAtlas.new w h)).entries,
        e.start_coord = some ((e.x_start : ℚ) / (w : ℚ), (e.y_start : ℚ) / (h : ℚ)) ∧
        e.end_coord = some (((e.x_start + e.image_width : ℕ) : ℚ) / (w : ℚ),
                            ((e.y_start + e.image_height : ℕ) : ℚ) / (h : ℚ))) ∧
    ∀ tname init,
      (atlasScan (ts.foldl UiAtlas.add_entry (UiAtlas.new w h)).entries tname init).isSome := by
  have hmem : ∀ e ∈ (ts.foldl UiAtlas.add_entry (UiAtlas.new w h)).entries,
      e.start_coord = some ((e.x_start : ℚ) / (w : ℚ), (e.y_start : ℚ) / (h : ℚ)) ∧
      e.end_coord = some (((e.x_start + e.image_width : ℕ) : ℚ) / (w : ℚ),
                          ((e.y_start + e.image_height : ℕ) : ℚ) / (h : ℚ)) := by
    intro e hmem
    rw [foldl_add_entry_entries] at hmem
    simp only [UiAtlas.new, List.nil_append, List.mem_map] at hmem
    obtain ⟨t, _, rfl⟩ := hmem
    simp [UiAtlasTexture.generate_tex_coords]
  exact ⟨hmem, atlasScan_isSome _ fun e he => by
    obtain ⟨h₁, h₂⟩ := hmem e he
    exact ⟨by simp [h₁], by simp [h₂]⟩⟩

/-- Witness for C10: on a concretely populated atlas the scan succeeds. -/
theorem C10_witness :
    (atlasScan ([UiAtlasTexture.new "a" 1 2 3 4].foldl UiAtlas.add_entry
        (UiAtlas.new 8 16)).entries "a" zeroTexQuad).isSome :=
  (C10_add_entry_coords_present 8 16 [UiAtlasTexture.new "a" 1 2 3 4]).2 "a" zeroTexQuad

/-- Folding any sequence of hover tints over an element never changes its
original colour. -/
lemma foldlM_with_temp_color_original (ss : List (List Char)) :
    ∀ el el' : Element, ss.foldlM Element.with_temp_color el = some el' →
      el'.original_color = el.original_color := by
  induction ss with
  | nil =>
    intro el el' hfold
    simp [List.foldlM] at hfold
    simp [hfold]
  | cons s ss ih =>
    intro el el' hfold
    simp only [List.foldlM_cons] at hfold
    obtain ⟨el₁, h₁, h₂⟩ := Option.bind_eq_some.mp hfold
    obtain ⟨c, hc, rfl⟩ := Option.map_eq_some'.mp h₁
    simpa using ih _ el' h₂

/-- C6: tinting an element any positive number of times with
Element::with_temp_color and then restoring once (writing original_color
into color, the hover-exit and reset_all_element_colors path) yields
exactly the original colour, and no tint ever modifies original_color. -/
theorem C6_hover_tint_restore (el : Element) (ss : List (List Char)) (_hne : ss ≠ []) :
    (ss.foldlM Element.with_temp_color el).elim True fun el' =>
      el'.original_color = el.original_color ∧
      ({ el' with color := el'.original_color } : Element).color = el.original_color := by
  cases hfold : ss.foldlM Element.with_temp_color el with
  | none => simp
  | some el' =>
    have horig := foldlM_with_temp_color_original ss el el' hfold
    simp [horig]

/-- Witness for C6: one tint of a concrete element. -/
theorem C6_witness :
    (([("#0a0a0aff".toList)].foldlM Element.with_temp_color
        (Element.new ⟨0, 0⟩ ⟨1, 1⟩ "solid")).elim True fun el' =>
      el'.original_color = (Element.new ⟨0, 0⟩ ⟨1, 1⟩ "solid").original_color ∧
      ({ el' with color := el'.original_color } : Element).color =
        (Element.new ⟨0, 0⟩ ⟨1, 1⟩ "solid").original_color) :=
  C6_hover_tint_restore _ _ (by simp)

/-- The state-threaded element loop returns the element list unchanged and
computes the same result as the plain loop. -/
lemma elemDispatchLoopSt_spec (rx ry : ℚ) (ty : InteractionStyle) :
    ∀ (i : ℕ) (es : List Element),
      elemDispatchLoopSt rx ry ty i es = (es, elemDispatchLoop rx ry ty i es) := by
  intro i es
  induction es generalizing i with
  | nil => simp [elemDispatchLoopSt, elemDispatchLoop]
  | cons el rest ih =>
    simp only [elemDispatchLoopSt, elemDispatchLoop]
    by_cases h₁ : rx ≥ el.start_coordinate.x ∧ rx ≤ el.end_coordinate.x ∧
        ry ≥ el.start_coordinate.y ∧ ry ≤ el.end_coordinate.y
    · simp only [if_pos h₁]
      by_cases h₂ : ty = InteractionStyle.OnClick ∧ el.on_click.isSome
      · simp only [if_pos h₂]
        cases hc : el.handle_click ty with
        | some ev => simp
        | none => simp [ih]
      · simp only [if_neg h₂]
        by_cases h₃ : ty = InteractionStyle.OnHover ∧ el.on_hover.isSome
        · simp only [if_pos h₃]
          cases hc : el.handle_click ty with
          | some ev => simp
          | none => simp [ih]
        · simp only [if_neg h₃]
          simp [ih]
    · simp only [if_neg h₁]
      simp [ih]

/-- The state-threaded panel loop returns the panel list unchanged and
computes the same result as the plain loop. -/
lemma panelDispatchLoopSt_spec (xp yp : ℚ) (ty : InteractionStyle) :
    ∀ (pi : ℕ) (ps : List Panel),
      panelDispatchLoopSt xp yp ty pi ps = (ps, panelDispatchLoop xp yp ty pi ps) := by
  intro pi ps
  induction ps generalizing pi with
  | nil => simp [panelDispatchLoopSt, panelDispatchLoop]
  | cons p rest ih =>
    simp only [panelDispatchLoopSt, panelDispatchLoop]
    by_cases h₁ : xp ≥ p.start_coordinate.x ∧ xp ≤ p.end_coordinate.x ∧
        yp ≥ p.start_coordinate.y ∧ yp ≤ p.end_coordinate.y
    · simp only [if_pos h₁, elemDispatchLoopSt_spec]
      cases he : elemDispatchLoop (xp - p.start_coordinate.x) (yp - p.start_coordinate.y) ty 0
          p.elements with
      | some r => simp
      | none => simp [ih]
    · simp only [if_neg h₁]
      simp [ih]

/-- C9: Interface::handle_interaction leaves the interface exactly as it
was — the state-threaded dispatch returns the input interface together
with the dispatch result. -/
theorem C9_dispatch_leaves_interface_unchanged (ui : Interface) (pos : ℚ × ℚ)
    (screen : ℕ × ℕ) (ty : InteractionStyle) :
    ui.handle_interaction_st pos screen ty = (ui, ui.handle_interaction pos screen ty) := by
  simp only [Interface.handle_interaction_st, Interface.handle_interaction,
    panelDispatchLoopSt_spec]

/-- Interface of the C2 counterexample: a single non-renderable panel with
no elements. -/
noncomputable def c2_ui : Interface :=
  (Interface.new (UiAtlas.new 1 1)).add_panel (Panel.new ⟨0, 0⟩ ⟨1, 1⟩)

/-- C2 counterexample: initialization on one empty non-renderable panel
allocates 128 bytes (one quad), while 4 × (element count + renderable
panel count) × 32 bytes is 0 — the source counts every panel when sizing
the buffer, not only renderable ones. -/
theorem C2_counterexample :
    ((c2_ui.init_gpu_buffers (800, 600)).map fun u => u.vertex_buffer) = some (some 128) ∧
    c2_ui.totalElements = 0 ∧ c2_ui.renderablePanels = 0 ∧
    (128 : ℕ) ≠ 4 * (c2_ui.totalElements + c2_ui.renderablePanels) * vertexSizeBytes := by
  refine ⟨?_, ?_, ?_, ?_⟩ <;>
    simp [c2_ui, Interface.init_gpu_buffers, Interface.update_vertices_and_queue_text,
      panelWritesLoop, elemWritesLoop, atlasScan, Interface.new, Interface.add_panel,
      Panel.new, UiAtlas.new, vertexSizeBytes, Interface.totalElements,
      Interface.renderablePanels]

/-- C2 amended: after initialization the vertex buffer capacity equals
4 × (total element count + total panel count) vertices of 32 bytes, the
panel count taken over all panels irrespective of the renderable flag. -/
theorem C2_amended_capacity (ui : Interface) (screen : ℕ × ℕ) :
    (ui.init_gpu_buffers screen).elim True fun ui' =>
      ui'.vertex_buffer =
        some (4 * (ui.totalElements + ui.totalPanels) * vertexSizeBytes) := by
  simp only [Interface.init_gpu_buffers]
  generalize Interface.update_vertices_and_queue_text _ screen = o
  cases o with
  | none => simp
  | some ws =>
    simp [Interface.totalElements, Interface.totalPanels]
    exact Or.inl (by ring)

/-- Mapping a post-composition through findSome?. -/
lemma findSome?_map_comp {α β γ : Type} (f : α → Option β) (g : β → γ) (l : List α) :
    l.findSome? (fun a => (f a).map g) = (l.findSome? f).map g := by
  induction l with
  | nil => simp
  | cons a l ih => cases h : f a <;> simp [List.findSome?_cons, h, ih]

/-- The element loop of the dispatcher equals the declarative first-match
scan over the indexed elements: restrict to elements containing the
relative cursor that own a matching handler, invoke in order, and take the
first produced event. -/
lemma elemDispatchLoop_eq (rx ry : ℚ) (ty : InteractionStyle) :
    ∀ (i : ℕ) (es : List Element),
      elemDispatchLoop rx ry ty i es =
        ((es.enumFrom i).filter fun ee =>
            elementContains rx ry ee.2 && hasMatchingHandler ee.2 ty).findSome?
          fun ee => (ee.2.handle_click ty).map fun ev => (ev, ee.1) := by
  intro i es
  induction es generalizing i with
  | nil => simp [elemDispatchLoop]
  | cons el rest ih =>
    simp only [elemDispatchLoop, List.enumFrom_cons]
    by_cases h₁ : rx ≥ el.start_coordinate.x ∧ rx ≤ el.end_coordinate.x ∧
        ry ≥ el.start_coordinate.y ∧ ry ≤ el.end_coordinate.y
    · simp only [if_pos h₁]
      by_cases h₂ : ty = InteractionStyle.OnClick ∧ el.on_click.isSome
      · have hm : hasMatchingHandler el ty = true := by
          simp [hasMatchingHandler, h₂.1, h₂.2]
        have hc : elementContains rx ry el = true := by
          simp [elementContains, h₁]
        simp only [if_pos h₂]
        cases hcl : el.handle_click ty with
        | some ev => simp [List.filter_cons, hc, hm, List.findSome?_cons, hcl]
        | none => simp [List.filter_cons, hc, hm, List.findSome?_cons, hcl, ih]
      · simp only [if_neg h₂]
        by_cases h₃ : ty = InteractionStyle.OnHover ∧ el.on_hover.isSome
        · have hm : hasMatchingHandler el ty = true := by
            simp [hasMatchingHandler, h₃.1, h₃.2]
          have hc : elementContains rx ry el = true := by
            simp [elementContains, h₁]
          simp only [if_pos h₃]
          cases hcl : el.handle_click ty with
          | some ev => simp [List.filter_cons, hc, hm, List.findSome?_cons, hcl]
          | none => simp [List.filter_cons, hc, hm, List.findSome?_cons, hcl, ih]
        · have hm : hasMatchingHandler el ty = false := by
            cases ty with
            | OnClick =>
              simp only [hasMatchingHandler]
              simp at h₂ h₃ ⊢
              exact h₂
            | OnHover =>
              simp only [hasMatchingHandler]
              simp at h₂ h₃ ⊢
              exact h₃
          simp only [if_neg h₃]
          simp [List.filter_cons, hm, ih]
    · have hc : elementContains rx ry el = false := by
        simp only [elementContains, decide_eq_false_iff_not]
        exact h₁
      simp [if_neg h₁, List.filter_cons, hc, ih]

/-- The panel loop of the dispatcher equals the declarative first-match
scan over the indexed candidate elements of all cursor-containing
panels. -/
lemma panelDispatchLoop_eq (xp yp : ℚ) (ty : InteractionStyle) :
    ∀ (pi : ℕ) (ps : List Panel),
      panelDispatchLoop xp yp ty pi ps =
        ((ps.enumFrom pi).flatMap fun pe =>
            if panelContains xp yp pe.2 then
              ((pe.2.elements.enum.filter fun ee =>
                  elementContains (xp - pe.2.start_coordinate.x)
                    (yp - pe.2.start_coordinate.y) ee.2 &&
                  hasMatchingHandler ee.2 ty).map fun ee => (pe.1, ee.1, ee.2))
            else []).findSome?
          fun c => (c.2.2.handle_click ty).map fun ev => (ev, c.1, c.2.1) := by
  intro pi ps
  induction ps generalizing pi with
  | nil => simp [panelDispatchLoop]
  | cons p rest ih =>
    simp only [panelDispatchLoop, List.enumFrom_cons, List.flatMap_cons]
    by_cases h₁ : xp ≥ p.start_coordinate.x ∧ xp ≤ p.end_coordinate.x ∧
        yp ≥ p.start_coordinate.y ∧ yp ≤ p.end_coordinate.y
    · have hpc : panelContains xp yp p = true := by
        simp [panelContains, h₁]
      simp only [if_pos h₁, hpc, if_pos, List.findSome?_append]
      rw [elemDispatchLoop_eq, ← List.enum_eq_enumFrom]
      have hmap :
          (((p.elements.enum.filter fun ee =>
              elementContains (xp - p.start_coordinate.x) (yp - p.start_coordinate.y) ee.2 &&
              hasMatchingHandler ee.2 ty).map fun ee => (pi, ee.1, ee.2)).findSome?
            fun c => (c.2.2.handle_click ty).map fun ev => (ev, c.1, c.2.1)) =
          ((p.elements.enum.filter fun ee =>
              elementContains (xp - p.start_coordinate.x) (yp - p.start_coordinate.y) ee.2 &&
              hasMatchingHandler ee.2 ty).findSome?
            fun ee => ((ee.2.handle_click ty).map fun ev => (ev, ee.1)).map
              fun r => (r.1, pi, r.2)) := by
        rw [List.findSome?_map]
        congr 1
        funext ee
        simp [Function.comp, Option.map_map, Function.comp_def]
      cases he : ((p.elements.enum.filter fun ee =>
          elementContains (xp - p.start_coordinate.x) (yp - p.start_coordinate.y) ee.2 &&
          hasMatchingHandler ee.2 ty).findSome?
            fun ee => (ee.2.handle_click ty).map fun ev => (ev, ee.1)) with
      | some r =>
        rw [hmap, findSome?_map_comp, he]
        simp
      | none =>
        rw [hmap, findSome?_map_comp, he]
        simp [ih]
    · have hpc : panelContains xp yp p = false := by
        simp only [panelContains, decide_eq_false_iff_not]
        exact h₁
      simp [if_neg h₁, hpc, ih]

/-- C1 amended: the dispatcher implements first-match-with-event
semantics — it returns the first element (panel order, then element
order) whose panel contains the cursor, whose rectangle contains the
panel-relative cursor, which owns a matching handler, and whose invoked
handler produces an event; invoked handlers that produce no event do not
terminate the search. -/
theorem C1_dispatch_first_event_wins (ui : Interface) (pos : ℚ × ℚ) (screen : ℕ × ℕ)
    (ty : InteractionStyle) :
    ui.handle_interaction pos screen ty = dispatchSpec ui pos screen ty := by
  simp only [Interface.handle_interaction, dispatchSpec, dispatchCandidates,
    panelDispatchLoop_eq, List.enum_eq_enumFrom]

/-- The instrumented element loop computes the same dispatch result as the
plain element loop. -/
lemma elemDispatchLoopTrace_snd (rx ry : ℚ) (ty : InteractionStyle) :
    ∀ (i : ℕ) (es : List Element),
      (elemDispatchLoopTrace rx ry ty i es).2 = elemDispatchLoop rx ry ty i es := by
  intro i es
  induction es generalizing i with
  | nil => simp [elemDispatchLoopTrace, elemDispatchLoop]
  | cons el rest ih =>
    simp only [elemDispatchLoopTrace, elemDispatchLoop]
    by_cases h₁ : rx ≥ el.start_coordinate.x ∧ rx ≤ el.end_coordinate.x ∧
        ry ≥ el.start_coordinate.y ∧ ry ≤ el.end_coordinate.y
    · simp only [if_pos h₁]
      by_cases h₂ : ty = InteractionStyle.OnClick ∧ el.on_click.isSome
      · simp only [if_pos h₂]
        cases hc : el.handle_click ty with
        | some ev => simp
        | none => simp [ih]
      · simp only [if_neg h₂]
        by_cases h₃ : ty = InteractionStyle.OnHover ∧ el.on_hover.isSome
        · simp only [if_pos h₃]
          cases hc : el.handle_click ty with
          | some ev => simp
          | none => simp [ih]
        · simp only [if_neg h₃]
          exact ih (i + 1)
    · simp only [if_neg h₁]
      exact ih (i + 1)

/-- The instrumented panel loop computes the same dispatch result as the
plain panel loop. -/
lemma panelDispatchLoopTrace_snd (xp yp : ℚ) (ty : InteractionStyle) :
    ∀ (pi : ℕ) (ps : List Panel),
      (panelDispatchLoopTrace xp yp ty pi ps).2 = panelDispatchLoop xp yp ty pi ps := by
  intro pi ps
  induction ps generalizing pi with
  | nil => simp [panelDispatchLoopTrace, panelDispatchLoop]
  | cons p rest ih =>
    simp only [panelDispatchLoopTrace, panelDispatchLoop]
    by_cases h₁ : xp ≥ p.start_coordinate.x ∧ xp ≤ p.end_coordinate.x ∧
        yp ≥ p.start_coordinate.y ∧ yp ≤ p.end_coordinate.y
    · simp only [if_pos h₁]
      rw [← elemDispatchLoopTrace_snd]
      cases he : (elemDispatchLoopTrace (xp - p.start_coordinate.x) (yp - p.start_coordinate.y)
          ty 0 p.elements).2 with
      | some r => cases r; simp
      | none => simp [ih]
    · simp only [if_neg h₁]
      exact ih (pi + 1)

/-- The instrumented Interface::handle_interaction agrees with the plain
one on the dispatch result. -/
lemma handle_interaction_trace_snd (ui : Interface) (pos : ℚ × ℚ) (screen : ℕ × ℕ)
    (ty : InteractionStyle) :
    (ui.handle_interaction_trace pos screen ty).2 = ui.handle_interaction pos screen ty := by
  simp only [Interface.handle_interaction_trace, Interface.handle_interaction,
    panelDispatchLoopTrace_snd]

/-- First element of the C1 counterexample: full-panel rectangle, click
handler that consumes the click without producing an event. -/
noncomputable def c1_elemA : Element :=
  (Element.new ⟨0, 0⟩ ⟨1, 1⟩ "solid").with_fn (fun _ => none) InteractionStyle.OnClick

/-- Second element of the C1 counterexample: same rectangle, click handler
producing Highlight. -/
noncomputable def c1_elemB : Element :=
  (Element.new ⟨0, 0⟩ ⟨1, 1⟩ "solid").with_fn (fun _ => some GuiEvent.Highlight)
    InteractionStyle.OnClick

/-- Interface of the C1 counterexample: one panel with the two overlapping
elements above, in construction order. -/
noncomputable def c1_ui : Interface :=
  (Interface.new (UiAtlas.new 1 1)).add_panel
    (((Panel.new ⟨0, 0⟩ ⟨1, 1⟩).add_element c1_elemA).add_element c1_elemB)

/-- C1 counterexample: element (0,0) contains the cursor and owns a click
handler, yet the dispatcher invokes the handlers of both elements and
returns the event of the later element (0,1) — the first matching node
does not terminate the search when its handler produces no event. -/
theorem C1_counterexample :
    c1_ui.handle_interaction_trace (1/2, 1/2) (1, 1) InteractionStyle.OnClick =
        ([(0, 0), (0, 1)], some (GuiEvent.Highlight, 0, 1)) ∧
    c1_ui.handle_interaction (1/2, 1/2) (1, 1) InteractionStyle.OnClick =
        some (GuiEvent.Highlight, 0, 1) ∧
    elementContains (1/2) (1/2) c1_elemA = true ∧
    hasMatchingHandler c1_elemA InteractionStyle.OnClick = true := by
  refine ⟨?_, ?_, ?_, ?_⟩ <;>
    · simp [Interface.handle_interaction_trace, Interface.handle_interaction, c1_ui,
        c1_elemA, c1_elemB, Interface.new, Interface.add_panel, Panel.new,
        Panel.add_element, Element.new, Element.with_fn, panelDispatchLoopTrace,
        elemDispatchLoopTrace, panelDispatchLoop, elemDispatchLoop, Element.handle_click,
        elementContains, hasMatchingHandler]
      try norm_num

/-- Hexadecimal digit in the sense of the colour specification: a decimal
digit or a letter a-f in either case. -/
def isHexDigitChar (c : Char) : Bool :=
  (decide ('0' ≤ c) && decide (c ≤ '9')) ||
  (decide ('a' ≤ c) && decide (c ≤ 'f')) ||
  (decide ('A' ≤ c) && decide (c ≤ 'F'))

/-- Hexadecimal colour specification in the sense of the claim: a hash
sign followed by exactly eight hexadecimal digits. -/
def isHexColorSpec (s : List Char) : Bool :=
  match s with
  | '#' :: rest => decide (rest.length = 8) && rest.all isHexDigitChar
  | _ => false

/-- Input shape actually accepted by Color::from_hex: a hash sign whose
next eight characters form four two-character groups each accepted by the
hexadecimal integer parser; any trailing characters are ignored. -/
def parsesAsColor (s : List Char) : Bool :=
  match s with
  | '#' :: c₀ :: c₁ :: c₂ :: c₃ :: c₄ :: c₅ :: c₆ :: c₇ :: _ =>
    (fromStrRadix16Pair c₀ c₁).isSome && (fromStrRadix16Pair c₂ c₃).isSome &&
    (fromStrRadix16Pair c₄ c₅).isSome && (fromStrRadix16Pair c₆ c₇).isSome
  | _ => false

/-- Input shape of the claim's success clause: a hash sign followed by at
least eight hexadecimal digits. -/
def startsWithHashHex8 (s : List Char) : Bool :=
  match s with
  | '#' :: c₀ :: c₁ :: c₂ :: c₃ :: c₄ :: c₅ :: c₆ :: c₇ :: _ =>
    [c₀, c₁, c₂, c₃, c₄, c₅, c₆, c₇].all isHexDigitChar
  | _ => false

/-- A hexadecimal digit always has a digit value. -/
lemma hexDigitVal_isSome {c : Char} (h : isHexDigitChar c = true) :
    (hexDigitVal c).isSome := by
  simp only [isHexDigitChar, Bool.or_eq_true, Bool.and_eq_true, decide_eq_true_eq] at h
  unfold hexDigitVal
  rcases h with (⟨h₁, h₂⟩ | ⟨h₁, h₂⟩) | ⟨h₁, h₂⟩
  · simp [h₁, h₂]
  · by_cases hd : '0' ≤ c ∧ c ≤ '9' <;> simp [hd, h₁, h₂]
  · by_cases hd : '0' ≤ c ∧ c ≤ '9'
    · simp [hd]
    · by_cases hl : 'a' ≤ c ∧ c ≤ 'f' <;> simp [hd, hl, h₁, h₂]

/-- Two hexadecimal digits always parse as a two-character group. -/
lemma fromStrRadix16Pair_isSome {c₁ c₂ : Char}
    (h₁ : isHexDigitChar c₁ = true) (h₂ : isHexDigitChar c₂ = true) :
    (fromStrRadix16Pair c₁ c₂).isSome := by
  obtain ⟨d₁, e₁⟩ := Option.isSome_iff_exists.mp (hexDigitVal_isSome h₁)
  obtain ⟨d₂, e₂⟩ := Option.isSome_iff_exists.mp (hexDigitVal_isSome h₂)
  simp [fromStrRadix16Pair, e₁, e₂]

/-- C8 amended: Color::from_hex aborts exactly on the inputs that do not
start with a hash sign followed by eight characters parseable as four
two-character hexadecimal groups — in particular it aborts on every input
without the hash-and-eight-parseable-characters prefix — and it returns a
colour without aborting on every input starting with a hash sign followed
by eight hexadecimal digits, regardless of trailing characters. -/
theorem C8_from_hex_abort_boundary (s : List Char) :
    (Color.from_hex s = none ↔ parsesAsColor s = false) ∧
    (startsWithHashHex8 s = true → (Color.from_hex s).isSome) := by
  constructor
  · unfold Color.from_hex parsesAsColor
    split
    · rename_i c₀ c₁ c₂ c₃ c₄ c₅ c₆ c₇ rest
      cases hp₁ : fromStrRadix16Pair c₀ c₁ <;>
        cases hp₂ : fromStrRadix16Pair c₂ c₃ <;>
          cases hp₃ : fromStrRadix16Pair c₄ c₅ <;>
            cases hp₄ : fromStrRadix16Pair c₆ c₇ <;>
              simp [hp₁, hp₂, hp₃, hp₄]
    · rename_i hshape
      simp
  · intro h
    unfold startsWithHashHex8 at h
    unfold Color.from_hex
    split
    · rename_i c₀ c₁ c₂ c₃ c₄ c₅ c₆ c₇ rest
      simp only [List.all_cons, List.all_nil, Bool.and_eq_true, Bool.and_true] at h
      obtain ⟨h₀, h₁, h₂, h₃, h₄, h₅, h₆, h₇⟩ := h
      obtain ⟨v₁, e₁⟩ := Option.isSome_iff_exists.mp (fromStrRadix16Pair_isSome h₀ h₁)
      obtain ⟨v₂, e₂⟩ := Option.isSome_iff_exists.mp (fromStrRadix16Pair_isSome h₂ h₃)
      obtain ⟨v₃, e₃⟩ := Option.isSome_iff_exists.mp (fromStrRadix16Pair_isSome h₄ h₅)
      obtain ⟨v₄, e₄⟩ := Option.isSome_iff_exists.mp (fromStrRadix16Pair_isSome h₆ h₇)
      simp [e₁, e₂, e₃, e₄]
    · rename_i hshape
      exact absurd h (by simp)

/-- C8 counterexample: "#ffffffffzz" is not a hexadecimal colour
specification (it has trailing non-hex characters), yet Color::from_hex
returns a colour for it instead of aborting. -/
theorem C8_counterexample :
    (Color.from_hex "#ffffffffzz".toList).isSome = true ∧
    isHexColorSpec "#ffffffffzz".toList = false := by
  constructor
  · rfl
  · decide

/-- Witness for C8 on concrete inputs: a non-hash input aborts and a
hash-plus-eight-digit input succeeds. -/
theorem C8_witness :
    Color.from_hex "red".toList = none ∧ (Color.from_hex "#0a0a0aff".toList).isSome :=
  ⟨(C8_from_hex_abort_boundary "red".toList).1.mpr (by decide),
   (C8_from_hex_abort_boundary "#0a0a0aff".toList).2 (by decide)⟩

/-- Quad count of a panel list: one background quad per renderable panel
plus one quad per element. -/
def panelsQuadCount (ps : List Panel) : ℕ :=
  (ps.filter fun p => p.renderable).length + (ps.map fun p => p.elements.length).sum

/-- Closed form of the element iteration of the render traversal: one
offset per element, advancing by one quad each time. -/
lemma elemRenderLoop_spec :
    ∀ (es : List Element) (off : ℕ),
      elemRenderLoop es off =
        ((List.range es.length).map fun k => off + quadSizeBytes * k,
         off + quadSizeBytes * es.length) := by
  intro es
  induction es with
  | nil => intro off; simp [elemRenderLoop]
  | cons e rest ih =>
    intro off
    simp only [elemRenderLoop, ih, List.length_cons, Prod.mk.injEq]
    refine ⟨?_, by ring⟩
    rw [List.range_succ_eq_map]
    simp only [List.map_cons, List.map_map, List.cons.injEq]
    refine ⟨by omega, ?_⟩
    congr 1
    funext k
    simp [Function.comp]
    ring

/-- The element iteration of the packer succeeds when the atlas scan
cannot abort and the vertex buffer is present, producing one write per
element whose offsets are exactly the offsets of the render traversal and
ending at the same offset. -/
lemma elemWritesLoop_lockstep (entries : List UiAtlasTexture)
    (hscan : ∀ tname init, (atlasScan entries tname init).isSome)
    (px_min py_min px_max py_max : ℚ) :
    ∀ (es : List Element) (off : ℕ) (tc : TexQuad),
      ∃ ws tc', elemWritesLoop entries true px_min py_min px_max py_max es off tc =
          some (ws, (elemRenderLoop es off).2, tc') ∧
        ws.map (fun w => w.offset) = (elemRenderLoop es off).1 ∧
        ws.length = es.length := by
  intro es
  induction es with
  | nil => intro off tc; exact ⟨[], tc, by simp [elemWritesLoop, elemRenderLoop]⟩
  | cons e rest ih =>
    intro off tc
    obtain ⟨tc₁, hsc⟩ := Option.isSome_iff_exists.mp (hscan e.texture_name tc)
    obtain ⟨ws, tc', hload, hoffs, hlen⟩ := ih (off + quadSizeBytes) tc₁
    refine ⟨{ offset := off,
              data := e.calculate_vertices_relative_to_panel px_min py_min px_max py_max tc₁ }
        :: ws, tc', ?_, ?_, ?_⟩
    · simp [elemWritesLoop, hsc, hload, elemRenderLoop]
    · simp [hoffs, elemRenderLoop]
    · simp [hlen]

/-- The panel iteration of the packer succeeds under the same conditions,
producing one write per renderable panel background and element, in
lockstep with the render traversal. -/
lemma panelWritesLoop_lockstep (entries : List UiAtlasTexture)
    (hscan : ∀ tname init, (atlasScan entries tname init).isSome) (screen : ℕ × ℕ) :
    ∀ (ps : List Panel) (off : ℕ),
      ∃ ws, panelWritesLoop entries true screen ps off =
          some (ws, (panelRenderLoop ps off).2) ∧
        ws.map (fun w => w.offset) = (panelRenderLoop ps off).1 ∧
        ws.length = panelsQuadCount ps := by
  intro ps
  induction ps with
  | nil => intro off; exact ⟨[], by simp [panelWritesLoop, panelRenderLoop, panelsQuadCount]⟩
  | cons p rest ih =>
    intro off
    obtain ⟨ptc, hpsc⟩ := Option.isSome_iff_exists.mp (hscan p.texture_name zeroTexQuad)
    rcases hr : p.renderable with hfalse | htrue
    · obtain ⟨ws₁, tc', hload₁, hoffs₁, hlen₁⟩ :=
        elemWritesLoop_lockstep entries hscan
          (p.calculate_absolute_coordinates screen).1
          (p.calculate_absolute_coordinates screen).2.1
          (p.calculate_absolute_coordinates screen).2.2.1
          (p.calculate_absolute_coordinates screen).2.2.2 p.elements off zeroTexQuad
      obtain ⟨ws₂, hload₂, hoffs₂, hlen₂⟩ := ih (elemRenderLoop p.elements off).2
      refine ⟨ws₁ ++ ws₂, ?_, ?_, ?_⟩
      · simp [panelWritesLoop, hpsc, hr, hload₁, hload₂, panelRenderLoop]
      · simp [panelRenderLoop, hr, hoffs₁, hoffs₂]
      · simp [panelsQuadCount, hlen₁, hlen₂, List.filter_cons, hr]
        ring
    · obtain ⟨ws₁, tc', hload₁, hoffs₁, hlen₁⟩ :=
        elemWritesLoop_lockstep entries hscan
          (p.calculate_absolute_coordinates screen).1
          (p.calculate_absolute_coordinates screen).2.1
          (p.calculate_absolute_coordinates screen).2.2.1
          (p.calculate_absolute_coordinates screen).2.2.2 p.elements (off + quadSizeBytes)
          zeroTexQuad
      obtain ⟨ws₂, hload₂, hoffs₂, hlen₂⟩ := ih (elemRenderLoop p.elements (off + quadSizeBytes)).2
      refine ⟨{ offset := off,
                data := panelQuadVertices p
                  (p.calculate_absolute_coordinates screen).1
                  (p.calculate_absolute_coordinates screen).2.1
                  (p.calculate_absolute_coordinates screen).2.2.1
                  (p.calculate_absolute_coordinates screen).2.2.2 ptc } :: (ws₁ ++ ws₂),
          ?_, ?_, ?_⟩
      · simp [panelWritesLoop, hpsc, hr, hload₁, hload₂, panelRenderLoop]
      · simp [panelRenderLoop, hr, hoffs₁, hoffs₂]
      · simp [panelsQuadCount, hlen₁, hlen₂, List.filter_cons, hr]
        ring

/-- Every offset of the render traversal is the start offset plus a whole
number of quads. -/
lemma panelRenderLoop_offset_multiple :
    ∀ (ps : List Panel) (off : ℕ), ∀ o ∈ (panelRenderLoop ps off).1,
      ∃ k, o = off + quadSizeBytes * k := by
  intro ps
  induction ps with
  | nil => intro off o ho; simp [panelRenderLoop] at ho
  | cons p rest ih =>
    intro off o ho
    rcases hr : p.renderable with hfalse | htrue
    · simp only [panelRenderLoop, hr] at ho
      simp only [Bool.false_eq_true, if_false, elemRenderLoop_spec, List.nil_append,
        List.mem_append, List.mem_map, List.mem_range] at ho
      rcases ho with ⟨k, _, hko⟩ | hrest
      · exact ⟨k, hko.symm⟩
      · obtain ⟨k, hk⟩ := ih _ o hrest
        exact ⟨p.elements.length + k, by rw [hk]; ring⟩
    · simp only [panelRenderLoop, hr] at ho
      simp only [if_true, elemRenderLoop_spec, List.cons_append, List.nil_append,
        List.mem_cons, List.mem_append, List.mem_map, List.mem_range] at ho
      rcases ho with rfl | (⟨k, _, hko⟩ | hrest)
      · exact ⟨0, by ring⟩
      · exact ⟨k + 1, by rw [← hko]; ring⟩
      · obtain ⟨k, hk⟩ := ih _ o hrest
        exact ⟨1 + p.elements.length + k, by rw [hk]; ring⟩

/-- C3: under initialized brush and buffers and an atlas whose entries all
carry coordinates, the packer succeeds and writes exactly one quad per
renderable panel and per element; the render traversal draws the same
number of quads; the write offsets equal the draw offsets in order, and
every offset of either traversal is a multiple of one quad's byte size. -/
theorem C3_update_render_lockstep (ui : Interface) (screen : ℕ × ℕ)
    (hb : ui.brush.isSome) (hv : ui.vertex_buffer.isSome) (hib : ui.index_buffer.isSome)
    (ha : ∀ e ∈ ui.atlas.entries, e.start_coord.isSome ∧ e.end_coord.isSome) :
    ∃ ws, ui.update_vertices_and_queue_text screen = some ws ∧
      ws.length = ui.renderablePanels + ui.totalElements ∧
      ui.render.length = ui.renderablePanels + ui.totalElements ∧
      ws.map (fun w => w.offset) = ui.render ∧
      (∀ w ∈ ws, quadSizeBytes ∣ w.offset) ∧
      (∀ off ∈ ui.render, quadSizeBytes ∣ off) := by
  obtain ⟨b, hbe⟩ := Option.isSome_iff_exists.mp hb
  obtain ⟨v, hve⟩ := Option.isSome_iff_exists.mp hv
  obtain ⟨ib, hibe⟩ := Option.isSome_iff_exists.mp hib
  have hscan := atlasScan_isSome ui.atlas.entries ha
  obtain ⟨ws, hload, hoffs, hlen⟩ :=
    panelWritesLoop_lockstep ui.atlas.entries hscan screen ui.panels 0
  have hrender : ui.render = (panelRenderLoop ui.panels 0).1 := by
    simp [Interface.render, hve, hibe]
  have hcount : panelsQuadCount ui.panels = ui.renderablePanels + ui.totalElements := by
    simp [panelsQuadCount, Interface.renderablePanels, Interface.totalElements]
  refine ⟨ws, ?_, ?_, ?_, ?_, ?_, ?_⟩
  · simp [Interface.update_vertices_and_queue_text, hbe, hve, hload]
  · rw [hlen, hcount]
  · rw [hrender, ← hoffs, List.length_map, hlen, hcount]
  · rw [hrender, hoffs]
  · intro w hw
    have hmem : w.offset ∈ ws.map (fun w => w.offset) := List.mem_map_of_mem _ hw
    rw [hoffs] at hmem
    obtain ⟨k, hk⟩ := panelRenderLoop_offset_multiple ui.panels 0 _ hmem
    exact ⟨k, by rw [hk]; ring⟩
  · intro off hoff
    rw [hrender] at hoff
    obtain ⟨k, hk⟩ := panelRenderLoop_offset_multiple ui.panels 0 off hoff
    exact ⟨k, by rw [hk]; ring⟩

/-- Interface of the C3 witness: initialized buffers, an atlas entry with
generated coordinates, one renderable panel with one element. -/
noncomputable def c3_ui : Interface :=
  { (Interface.new ((UiAtlas.new 4 4).add_entry (UiAtlasTexture.new "btn" 0 0 2 2))).add_panel
      (((Panel.new ⟨0, 0⟩ ⟨1, 1⟩).add_element (Element.new ⟨0, 0⟩ ⟨1, 1⟩ "btn"))) with
    brush := some (), vertex_buffer := some 256, index_buffer := some [0, 2, 1, 1, 2, 3] }

/-- Witness for C3 on the concrete interface above. -/
theorem C3_witness :
    ∃ ws, c3_ui.update_vertices_and_queue_text (8, 8) = some ws ∧
      ws.length = c3_ui.renderablePanels + c3_ui.totalElements ∧
      c3_ui.render.length = c3_ui.renderablePanels + c3_ui.totalElements ∧
      ws.map (fun w => w.offset) = c3_ui.render ∧
      (∀ w ∈ ws, quadSizeBytes ∣ w.offset) ∧
      (∀ off ∈ c3_ui.render, quadSizeBytes ∣ off) :=
  C3_update_render_lockstep c3_ui (8, 8) (by simp [c3_ui]) (by simp [c3_ui])
    (by simp [c3_ui])
    (by
      intro e he
      simp [c3_ui, Interface.new, Interface.add_panel, UiAtlas.add_entry, UiAtlas.new,
        UiAtlasTexture.new, UiAtlasTexture.generate_tex_coords] at he
      simp [he])

/-- Atlas of the C4 failing input: one entry "btn" with generated UVs
start (1/4, 1/4), end (3/4, 3/4). -/
def c4_atlas : UiAtlas := (UiAtlas.new 4 4).add_entry (UiAtlasTexture.new "btn" 1 1 2 2)

/-- First element of the C4 failing input: its texture matches the atlas
entry. -/
noncomputable def c4_elemA : Element := Element.new ⟨0, 0⟩ ⟨1/2, 1⟩ "btn"

/-- Second element of the C4 failing input: its texture matches no atlas
entry. -/
noncomputable def c4_elemB : Element := Element.new ⟨1/2, 0⟩ ⟨1, 1⟩ "missing"

/-- Interface of the C4 failing input, with initialized brush and
buffers. -/
noncomputable def c4_ui : Interface :=
  { (Interface.new c4_atlas).add_panel
      (((Panel.new ⟨0, 0⟩ ⟨1, 1⟩).add_element c4_elemA).add_element c4_elemB) with
    brush := some (), vertex_buffer := some 256, index_buffer := some [0, 2, 1, 1, 2, 3] }

/-- C4 failing input: the second element's texture name matches no atlas
entry, yet its quad is emitted with the UV rectangle of the first
element's matched texture instead of the all-zero rectangle — the
`tex_coords` variable is declared once per panel, so a failed lookup
inherits the previous element's match. -/
theorem C4_failing_input_stale_uv :
    ((c4_ui.update_vertices_and_queue_text (4, 4)).map fun ws =>
        ws.map fun w => w.data.map fun v => v.tex_coords) =
      some [[(1/4, 1/4), (3/4, 1/4), (1/4, 3/4), (3/4, 3/4)],
            [(1/4, 1/4), (3/4, 1/4), (1/4, 3/4), (3/4, 3/4)]] ∧
    c4_atlas.entries.all (fun e => e.name != "missing") = true := by
  constructor
  · simp [c4_ui, c4_atlas, c4_elemA, c4_elemB, Interface.update_vertices_and_queue_text,
      panelWritesLoop, elemWritesLoop, atlasScan, zeroTexQuad, Interface.new,
      Interface.add_panel, Panel.new, Panel.add_element, Element.new, UiAtlas.add_entry,
      UiAtlas.new, UiAtlasTexture.new, UiAtlasTexture.generate_tex_coords,
      Element.calculate_vertices_relative_to_panel]
    try norm_num
  · decide
